import Mathlib

/-!
# Verification of the azure-logs-mcp request-admission layer

Shallow embedding of the rate limiter, client-identity derivation, input
validation, error sanitization, HTTP session routing and log-redaction
behaviour of the azure-logs-mcp server, together with proofs of the
specified properties.

Timestamps (`Date.now()` values, milliseconds) are modelled as `Nat`.
The JavaScript `Map` backing the rate limiter is modelled as an
association list in insertion order: `Map.set` updates an existing key in
place or appends a fresh binding at the end, `Map.get` returns the bound
value, `Map.delete` removes the binding.
-/

namespace AzureLogsMcp

/-- `RateLimitEntry` from `src/utils.ts`: a request count and the
millisecond timestamp at which the window resets. -/
structure RateLimitEntry where
  count : Nat
  resetTime : Nat
deriving Repr, DecidableEq

/-- The state of a `RateLimiter` instance from `src/utils.ts`:
the `limits` map plus the two configuration constants fixed by the
constructor (`maxRequests = 10`, `windowMs = 60000` by default). -/
structure RateLimiterState where
  maxRequests : Nat
  windowMs : Nat
  limits : List (String × RateLimitEntry)
deriving Repr, DecidableEq

/-- `new RateLimiter(maxRequests, windowMs)` with an empty map. -/
def RateLimiter.mk (maxRequests windowMs : Nat) : RateLimiterState :=
  ⟨maxRequests, windowMs, []⟩

/-- The default-constructed limiter: 10 requests per 60000 ms. -/
def RateLimiter.default : RateLimiterState :=
  RateLimiter.mk 10 60000

/-- `Map.get`: the value bound to `k`, if any. -/
def mapGet (l : List (String × RateLimitEntry)) (k : String) :
    Option RateLimitEntry :=
  match l with
  | [] => none
  | (k', v) :: rest => if k' = k then some v else mapGet rest k

/-- `Map.set`: update the binding for `k` in place, or append it. -/
def mapSet (l : List (String × RateLimitEntry)) (k : String)
    (v : RateLimitEntry) : List (String × RateLimitEntry) :=
  match l with
  | [] => [(k, v)]
  | (k', v') :: rest =>
      if k' = k then (k, v) :: rest else (k', v') :: mapSet rest k v

/-- `Map.delete`: remove the binding for `k`. -/
def mapDelete (l : List (String × RateLimitEntry)) (k : String) :
    List (String × RateLimitEntry) :=
  match l with
  | [] => []
  | (k', v') :: rest =>
      if k' = k then rest else (k', v') :: mapDelete rest k

/-- `RateLimiter.checkLimit(clientId)` from `src/utils.ts`, with the
current time `now` (`Date.now()`) passed explicitly.  Returns the boolean
result together with the successor state.

```
if (!entry || now > entry.resetTime) {
  this.limits.set(clientId, { count: 1, resetTime: now + this.windowMs });
  return true;
}
if (entry.count >= this.maxRequests) { return false; }
entry.count++;
return true;
``` -/
def checkLimit (now : Nat) (clientId : String) (s : RateLimiterState) :
    Bool × RateLimiterState :=
  match mapGet s.limits clientId with
  | none =>
      (true, { s with
        limits := mapSet s.limits clientId ⟨1, now + s.windowMs⟩ })
  | some entry =>
      if now > entry.resetTime then
        (true, { s with
          limits := mapSet s.limits clientId ⟨1, now + s.windowMs⟩ })
      else if entry.count ≥ s.maxRequests then
        (false, s)
      else
        (true, { s with
          limits := mapSet s.limits clientId
            ⟨entry.count + 1, entry.resetTime⟩ })

/-- `RateLimiter.clearLimit(clientId)` from `src/utils.ts`. -/
def clearLimit (clientId : String) (s : RateLimiterState) :
    RateLimiterState :=
  { s with limits := mapDelete s.limits clientId }

/-- `RateLimiter.cleanup()` from `src/utils.ts`: delete every entry whose
window has expired (`now > entry.resetTime`). -/
def cleanup (now : Nat) (s : RateLimiterState) : RateLimiterState :=
  { s with limits := s.limits.filter (fun p => !(now > p.2.resetTime)) }

/-- A sequence of `checkLimit` calls for one client at the given times,
returning the list of boolean results and the final state. -/
def runChecks (times : List Nat) (clientId : String)
    (s : RateLimiterState) : List Bool × RateLimiterState :=
  match times with
  | [] => ([], s)
  | t :: ts =>
      let r := checkLimit t clientId s
      let rs := runChecks ts clientId r.2
      (r.1 :: rs.1, rs.2)

theorem mapGet_mapSet_self (l : List (String × RateLimitEntry))
    (k : String) (v : RateLimitEntry) : mapGet (mapSet l k v) k = some v := by
  induction l with
  | nil => simp [mapGet, mapSet]
  | cons hd tl ih =>
      by_cases h : hd.1 = k
      · simp [mapGet, mapSet, h]
      · simp [mapGet, mapSet, h, ih]

theorem mapGet_mapSet_ne (l : List (String × RateLimitEntry))
    (k k' : String) (v : RateLimitEntry) (h : k ≠ k') :
    mapGet (mapSet l k v) k' = mapGet l k' := by
  induction l with
  | nil => simp [mapGet, mapSet, h]
  | cons hd tl ih =>
      by_cases hh : hd.1 = k
      · simp [mapGet, mapSet, hh, h]
      · simp [mapGet, mapSet, hh, ih]

theorem mem_mapSet (l : List (String × RateLimitEntry)) (k : String)
    (v : RateLimitEntry) (p : String × RateLimitEntry)
    (hp : p ∈ mapSet l k v) : p = (k, v) ∨ p ∈ l := by
  induction l with
  | nil => simpa [mapSet] using hp
  | cons hd tl ih =>
      by_cases hh : hd.1 = k
      · simp only [mapSet, if_pos hh, List.mem_cons] at hp
        rcases hp with h | h
        · exact Or.inl h
        · exact Or.inr (List.mem_cons_of_mem _ h)
      · simp only [mapSet, if_neg hh, List.mem_cons] at hp
        rcases hp with h | h
        · exact Or.inr (h ▸ List.mem_cons_self _ _)
        · rcases ih h with h' | h'
          · exact Or.inl h'
          · exact Or.inr (List.mem_cons_of_mem _ h')

theorem checkLimit_maxRequests (now : Nat) (c : String)
    (s : RateLimiterState) :
    ((checkLimit now c s).2).maxRequests = s.maxRequests := by
  unfold checkLimit
  cases mapGet s.limits c with
  | none => simp
  | some e => by_cases h1 : now > e.resetTime <;>
      by_cases h2 : e.count ≥ s.maxRequests <;> simp [h1, h2]

theorem checkLimit_windowMs (now : Nat) (c : String)
    (s : RateLimiterState) :
    ((checkLimit now c s).2).windowMs = s.windowMs := by
  unfold checkLimit
  cases mapGet s.limits c with
  | none => simp
  | some e => by_cases h1 : now > e.resetTime <;>
      by_cases h2 : e.count ≥ s.maxRequests <;> simp [h1, h2]

/-- Invariant for a run of admitted calls inside one window: starting from
an entry `⟨k, r⟩`, a sequence of calls at times `≤ r` that stays below
`maxRequests` is fully admitted and just counts up. -/
theorem runChecks_in_window (ts : List Nat) (c : String)
    (s : RateLimiterState) (k r : Nat)
    (hget : mapGet s.limits c = some ⟨k, r⟩)
    (hts : ∀ t ∈ ts, t ≤ r)
    (hcnt : k + ts.length ≤ s.maxRequests) :
    (runChecks ts c s).1 = List.replicate ts.length true ∧
    mapGet (runChecks ts c s).2.limits c = some ⟨k + ts.length, r⟩ ∧
    (runChecks ts c s).2.maxRequests = s.maxRequests ∧
    (runChecks ts c s).2.windowMs = s.windowMs := by
  induction ts generalizing s k with
  | nil => simpa [runChecks] using hget
  | cons t ts ih =>
      have hle : t ≤ r := hts t (List.mem_cons_self _ _)
      have hlt : k < s.maxRequests := by
        simp only [List.length_cons] at hcnt
        omega
      have hstep : checkLimit t c s =
          (true, { s with limits := mapSet s.limits c ⟨k + 1, r⟩ }) := by
        unfold checkLimit
        rw [hget]
        simp [Nat.not_lt.mpr hle, Nat.not_le.mpr hlt]
      have hget' : mapGet (mapSet s.limits c ⟨k + 1, r⟩) c =
          some ⟨k + 1, r⟩ := mapGet_mapSet_self _ _ _
      have hrec := ih { s with limits := mapSet s.limits c ⟨k + 1, r⟩ }
        (k + 1) hget' (fun t' ht' => hts t' (List.mem_cons_of_mem _ ht'))
        (by
          simp only [List.length_cons] at hcnt
          show k + 1 + ts.length ≤ s.maxRequests
          omega)
      simp only [runChecks, hstep]
      refine ⟨?_, ?_, hrec.2.2⟩
      · simp [hrec.1, List.replicate_succ]
      · have := hrec.2.1
        simpa [Nat.add_assoc, Nat.add_comm 1 ts.length] using this


/-- C1: for a fresh client identity under the default configuration
(`maxRequests = 10`, `windowDurationMs = 60000`), ten consecutive
`checkLimit` calls inside one window are all admitted (the first call
creates the entry with `count = 1`), the eleventh call inside the same
window is rejected, and a call strictly after the window reset time is
admitted again with a fresh `count = 1` entry. -/
theorem checkLimit_default_window (s : RateLimiterState) (c : String)
    (t1 t11 t12 : Nat) (ts : List Nat)
    (hmax : s.maxRequests = 10) (hwin : s.windowMs = 60000)
    (hfresh : mapGet s.limits c = none)
    (hlen : ts.length = 9)
    (hts : ∀ t ∈ ts, t ≤ t1 + 60000)
    (h11 : t11 ≤ t1 + 60000)
    (h12 : t1 + 60000 < t12) :
    (runChecks (t1 :: ts) c s).1 = List.replicate 10 true ∧
    (checkLimit t11 c (runChecks (t1 :: ts) c s).2).1 = false ∧
    (checkLimit t12 c (checkLimit t11 c (runChecks (t1 :: ts) c s).2).2).1
      = true ∧
    mapGet (checkLimit t12 c
        (checkLimit t11 c (runChecks (t1 :: ts) c s).2).2).2.limits c
      = some ⟨1, t12 + 60000⟩ := by
  have key : ∀ s1 : RateLimiterState, s1.maxRequests = 10 →
      s1.windowMs = 60000 →
      mapGet s1.limits c = some ⟨1, t1 + 60000⟩ →
      (runChecks ts c s1).1 = List.replicate 9 true ∧
      (checkLimit t11 c (runChecks ts c s1).2).1 = false ∧
      (checkLimit t12 c (checkLimit t11 c (runChecks ts c s1).2).2).1
        = true ∧
      mapGet (checkLimit t12 c
          (checkLimit t11 c (runChecks ts c s1).2).2).2.limits c
        = some ⟨1, t12 + 60000⟩ := by
    intro s1 hm1 hw1 hg1
    have hrun := runChecks_in_window ts c s1 1 (t1 + 60000) hg1 hts
      (by rw [hm1, hlen])
    rw [hlen] at hrun
    obtain ⟨hres, hget10, hmaxeq, hwineq⟩ := hrun
    rw [hm1] at hmaxeq
    rw [hw1] at hwineq
    have h11step : checkLimit t11 c (runChecks ts c s1).2 =
        (false, (runChecks ts c s1).2) := by
      unfold checkLimit
      rw [hget10, hmaxeq]
      simp [Nat.not_lt.mpr h11]
    have h12step : checkLimit t12 c (runChecks ts c s1).2 =
        (true, { (runChecks ts c s1).2 with
          limits := mapSet (runChecks ts c s1).2.limits c
            ⟨1, t12 + 60000⟩ }) := by
      unfold checkLimit
      rw [hget10]
      simp [h12, hwineq]
    refine ⟨hres, by rw [h11step], by rw [h11step, h12step], ?_⟩
    rw [h11step, h12step]
    exact mapGet_mapSet_self _ _ _
  have hstep : checkLimit t1 c s =
      (true, { s with limits := mapSet s.limits c ⟨1, t1 + 60000⟩ }) := by
    unfold checkLimit
    rw [hfresh, hwin]
  have hk := key { s with limits := mapSet s.limits c ⟨1, t1 + 60000⟩ }
    hmax hwin (mapGet_mapSet_self _ _ _)
  refine ⟨?_, ?_, ?_, ?_⟩
  · simp only [runChecks, hstep]
    rw [hk.1]
    rfl
  · simp only [runChecks, hstep]
    exact hk.2.1
  · simp only [runChecks, hstep]
    exact hk.2.2.1
  · simp only [runChecks, hstep]
    exact hk.2.2.2

/-- Witness for C1 at concrete inputs: a fresh default limiter, client
`"ip:1.2.3.4"`, calls 1–10 at time 0, call 11 at time 60000 (still inside
the window), call 12 at time 60001. -/
theorem checkLimit_default_window_witness :
    (runChecks (0 :: List.replicate 9 0) "ip:1.2.3.4"
        (RateLimiter.mk 10 60000)).1 = List.replicate 10 true ∧
    (checkLimit 60000 "ip:1.2.3.4"
        (runChecks (0 :: List.replicate 9 0) "ip:1.2.3.4"
          (RateLimiter.mk 10 60000)).2).1 = false ∧
    (checkLimit 60001 "ip:1.2.3.4"
        (checkLimit 60000 "ip:1.2.3.4"
          (runChecks (0 :: List.replicate 9 0) "ip:1.2.3.4"
            (RateLimiter.mk 10 60000)).2).2).1 = true ∧
    mapGet (checkLimit 60001 "ip:1.2.3.4"
        (checkLimit 60000 "ip:1.2.3.4"
          (runChecks (0 :: List.replicate 9 0) "ip:1.2.3.4"
            (RateLimiter.mk 10 60000)).2).2).2.limits "ip:1.2.3.4"
      = some ⟨1, 120001⟩ := by
  have h := checkLimit_default_window (RateLimiter.mk 10 60000)
    "ip:1.2.3.4" 0 60000 60001 (List.replicate 9 0)
    rfl rfl rfl (by decide)
    (by intro t ht; simp only [List.eq_of_mem_replicate ht]; omega)
    (by omega) (by omega)
  simpa using h

/-- C5: a rejected request consumes no quota.  When an existing, unexpired
entry has `count ≥ maxRequests`, `checkLimit` returns `false` and the
whole limiter state (hence the map: entries, counts and reset times) is
unchanged. -/
theorem checkLimit_rejected_frame (now : Nat) (c : String)
    (s : RateLimiterState) (e : RateLimitEntry)
    (hget : mapGet s.limits c = some e)
    (hin : now ≤ e.resetTime)
    (hfull : e.count ≥ s.maxRequests) :
    checkLimit now c s = (false, s) := by
  unfold checkLimit
  rw [hget]
  simp [Nat.not_lt.mpr hin, hfull]

/-- Witness for C5: a full entry (`count = 10` of `maxRequests = 10`)
inside its window is rejected and the state is returned untouched. -/
theorem checkLimit_rejected_frame_witness :
    checkLimit 50 "c" ⟨10, 60000, [("c", ⟨10, 100⟩)]⟩ =
      (false, ⟨10, 60000, [("c", ⟨10, 100⟩)]⟩) :=
  checkLimit_rejected_frame 50 "c" ⟨10, 60000, [("c", ⟨10, 100⟩)]⟩
    ⟨10, 100⟩ (by decide) (by decide) (by decide)

/-- Counterexample to C6 as stated: a call arriving exactly at the stored
reset time is NOT treated as a new window.  With a full entry
`⟨count 10, resetTime 100⟩` and `maxRequests = 10`, a call at `now = 100`
is rejected and no fresh `count = 1` entry is created — because
`now > entry.resetTime` is false at equality. -/
theorem checkLimit_at_reset_counterexample :
    checkLimit 100 "c" ⟨10, 60000, [("c", ⟨10, 100⟩)]⟩ =
      (false, ⟨10, 60000, [("c", ⟨10, 100⟩)]⟩) ∧
    ¬ ((checkLimit 100 "c" ⟨10, 60000, [("c", ⟨10, 100⟩)]⟩).1 = true ∧
       mapGet (checkLimit 100 "c"
           ⟨10, 60000, [("c", ⟨10, 100⟩)]⟩).2.limits "c"
         = some ⟨1, 100 + 60000⟩) := by
  constructor
  · decide
  · decide

/-- C6 (amended): a call arriving exactly at the stored window reset time
(`now = windowResetAt`) is still inside the OLD window, because expiry is
decided by a strictly-greater-than comparison: the stored entry is kept
(the call is admitted, incrementing the count in place, only when
`count < maxRequests`), and a fresh `count = 1` entry is created only for
calls strictly after the reset time. -/
theorem checkLimit_at_reset (now : Nat) (c : String)
    (s : RateLimiterState) (e : RateLimitEntry)
    (hget : mapGet s.limits c = some e)
    (heq : now = e.resetTime) :
    (e.count ≥ s.maxRequests → checkLimit now c s = (false, s)) ∧
    (e.count < s.maxRequests → checkLimit now c s =
      (true,
        { s with
          limits := mapSet s.limits c ⟨e.count + 1, e.resetTime⟩ })) ∧
    (∀ t, e.resetTime < t → checkLimit t c s =
      (true,
        { s with limits := mapSet s.limits c ⟨1, t + s.windowMs⟩ })) := by
  subst heq
  refine ⟨?_, ?_, ?_⟩
  · intro hfull
    unfold checkLimit
    rw [hget]
    simp [hfull]
  · intro hlt
    unfold checkLimit
    rw [hget]
    simp [Nat.not_le.mpr hlt]
  · intro t ht
    unfold checkLimit
    rw [hget]
    simp [ht]

/-- Witness for C6 (amended) at a full entry and at a non-full entry. -/
theorem checkLimit_at_reset_witness :
    checkLimit 100 "c" ⟨10, 60000, [("c", ⟨10, 100⟩)]⟩ =
      (false, ⟨10, 60000, [("c", ⟨10, 100⟩)]⟩) ∧
    checkLimit 100 "d" ⟨10, 60000, [("d", ⟨3, 100⟩)]⟩ =
      (true, ⟨10, 60000, [("d", ⟨4, 100⟩)]⟩) ∧
    checkLimit 101 "c" ⟨10, 60000, [("c", ⟨10, 100⟩)]⟩ =
      (true, ⟨10, 60000, [("c", ⟨1, 60101⟩)]⟩) := by
  refine ⟨?_, ?_, ?_⟩
  · exact (checkLimit_at_reset 100 "c" ⟨10, 60000, [("c", ⟨10, 100⟩)]⟩
      ⟨10, 100⟩ (by decide) (by decide)).1 (by decide)
  · have h := (checkLimit_at_reset 100 "d" ⟨10, 60000, [("d", ⟨3, 100⟩)]⟩
      ⟨3, 100⟩ (by decide) (by decide)).2.1 (by decide)
    rw [h]
    decide
  · have h := (checkLimit_at_reset 100 "c" ⟨10, 60000, [("c", ⟨10, 100⟩)]⟩
      ⟨10, 100⟩ (by decide) (by decide)).2.2 101 (by decide)
    rw [h]
    decide

/-- C9: `cleanup` removes exactly the expired entries (`now > resetTime`)
and no others; it is the identity when nothing is expired; and it is
idempotent, so a second sweep at the same time is always a no-op. -/
theorem cleanup_exact (now : Nat) (s : RateLimiterState) :
    (∀ p : String × RateLimitEntry,
      p ∈ (cleanup now s).limits ↔ p ∈ s.limits ∧ now ≤ p.2.resetTime) ∧
    ((∀ p ∈ s.limits, now ≤ p.2.resetTime) → cleanup now s = s) ∧
    cleanup now (cleanup now s) = cleanup now s := by
  refine ⟨?_, ?_, ?_⟩
  · intro p
    simp [cleanup, List.mem_filter, Nat.not_lt]
  · intro h
    cases s with
    | mk maxRequests windowMs limits =>
        simp only [cleanup, RateLimiterState.mk.injEq, true_and]
        rw [List.filter_eq_self]
        intro p hp
        simpa [Nat.not_lt] using h p hp
  · cases s with
    | mk maxRequests windowMs limits =>
        simp only [cleanup, RateLimiterState.mk.injEq, true_and]
        rw [List.filter_eq_self]
        intro p hp
        exact (List.mem_filter.mp hp).2

/-- Witness for C9: a concrete map in which exactly one of two entries is
expired at `now = 150`; sweeping keeps the live entry, a map with no
expired entries is untouched, and the double sweep equals the single
sweep. -/
theorem cleanup_exact_witness :
    (("a", (⟨3, 100⟩ : RateLimitEntry)) ∈
        (cleanup 150 ⟨10, 60000, [("a", ⟨3, 100⟩), ("b", ⟨5, 200⟩)]⟩).limits
      ↔ ("a", (⟨3, 100⟩ : RateLimitEntry)) ∈
          [("a", (⟨3, 100⟩ : RateLimitEntry)), ("b", ⟨5, 200⟩)] ∧
        (150 : Nat) ≤ 100) ∧
    cleanup 150 ⟨10, 60000, [("b", ⟨5, 200⟩)]⟩ =
      ⟨10, 60000, [("b", ⟨5, 200⟩)]⟩ ∧
    cleanup 150 (cleanup 150
        ⟨10, 60000, [("a", ⟨3, 100⟩), ("b", ⟨5, 200⟩)]⟩) =
      cleanup 150 ⟨10, 60000, [("a", ⟨3, 100⟩), ("b", ⟨5, 200⟩)]⟩ := by
  refine ⟨?_, ?_, ?_⟩
  · exact (cleanup_exact 150
      ⟨10, 60000, [("a", ⟨3, 100⟩), ("b", ⟨5, 200⟩)]⟩).1
      ("a", ⟨3, 100⟩)
  · exact (cleanup_exact 150 ⟨10, 60000, [("b", ⟨5, 200⟩)]⟩).2.1
      (by decide)
  · exact (cleanup_exact 150
      ⟨10, 60000, [("a", ⟨3, 100⟩), ("b", ⟨5, 200⟩)]⟩).2.2

/-- An operation on the shared rate limiter: a `checkLimit` call at some
time, a `clearLimit`, or a `cleanup` sweep. -/
inductive RLOp where
  | check (now : Nat) (clientId : String)
  | clear (clientId : String)
  | clean (now : Nat)

/-- Apply one rate-limiter operation to the state. -/
def applyOp (op : RLOp) (s : RateLimiterState) : RateLimiterState :=
  match op with
  | .check now c => (checkLimit now c s).2
  | .clear c => clearLimit c s
  | .clean now => cleanup now s

/-- Apply a sequence of rate-limiter operations, oldest first. -/
def applyOps (ops : List RLOp) (s : RateLimiterState) :
    RateLimiterState :=
  match ops with
  | [] => s
  | op :: rest => applyOps rest (applyOp op s)

/-- Every stored count lies in `[1, maxRequests]`. -/
def countsInRange (s : RateLimiterState) : Prop :=
  ∀ p ∈ s.limits, 1 ≤ p.2.count ∧ p.2.count ≤ s.maxRequests

instance (s : RateLimiterState) : Decidable (countsInRange s) := by
  unfold countsInRange
  infer_instance

theorem mem_mapDelete (l : List (String × RateLimitEntry)) (k : String)
    (p : String × RateLimitEntry) (hp : p ∈ mapDelete l k) : p ∈ l := by
  induction l with
  | nil => simp [mapDelete] at hp
  | cons hd tl ih =>
      by_cases hh : hd.1 = k
      · simp only [mapDelete, if_pos hh] at hp
        exact List.mem_cons_of_mem _ hp
      · simp only [mapDelete, if_neg hh, List.mem_cons] at hp
        rcases hp with h | h
        · exact h ▸ List.mem_cons_self _ _
        · exact List.mem_cons_of_mem _ (ih h)

theorem countsInRange_checkLimit (now : Nat) (c : String)
    (s : RateLimiterState) (hmax : 1 ≤ s.maxRequests)
    (hinv : countsInRange s) : countsInRange (checkLimit now c s).2 := by
  unfold checkLimit
  cases hget : mapGet s.limits c with
  | none =>
      intro p hp
      simp only at hp
      rcases mem_mapSet _ _ _ _ hp with h | h
      · rw [h]
        exact ⟨Nat.le_refl 1, hmax⟩
      · exact hinv p h
  | some e =>
      by_cases h1 : now > e.resetTime
      · simp only [if_pos h1]
        intro p hp
        simp only at hp
        rcases mem_mapSet _ _ _ _ hp with h | h
        · rw [h]
          exact ⟨Nat.le_refl 1, hmax⟩
        · exact hinv p h
      · simp only [if_neg h1]
        by_cases h2 : e.count ≥ s.maxRequests
        · simp only [if_pos h2]
          exact hinv
        · simp only [if_neg h2]
          intro p hp
          simp only at hp
          rcases mem_mapSet _ _ _ _ hp with h | h
          · rw [h]
            exact ⟨Nat.le_add_left 1 e.count, Nat.not_le.mp h2⟩
          · exact hinv p h

theorem countsInRange_applyOp (op : RLOp) (s : RateLimiterState)
    (hmax : 1 ≤ s.maxRequests) (hinv : countsInRange s) :
    countsInRange (applyOp op s) := by
  cases op with
  | check now c => exact countsInRange_checkLimit now c s hmax hinv
  | clear c =>
      intro p hp
      exact hinv p (mem_mapDelete _ _ _ hp)
  | clean now =>
      intro p hp
      exact hinv p (List.mem_filter.mp hp).1

theorem applyOp_maxRequests (op : RLOp) (s : RateLimiterState) :
    (applyOp op s).maxRequests = s.maxRequests := by
  cases op with
  | check now c => exact checkLimit_maxRequests now c s
  | clear c => rfl
  | clean now => rfl

/-- Counterexample to C10 as stated: with `maxRequests = 0` (permitted by
the constructor), a single `checkLimit` call stores an entry with
`count = 1 > 0 = maxRequests`. -/
theorem rateLimiter_count_bound_counterexample :
    ¬ countsInRange
      (applyOps [RLOp.check 0 "c"] (RateLimiter.mk 0 60000)) := by
  decide

/-- C10 (amended): provided `maxRequests ≥ 1` (true of every limiter the
code constructs — the default is 10), every sequence of `checkLimit`,
`clearLimit` and `cleanup` operations starting from a fresh limiter keeps
every stored count in `[1, maxRequests]`: counts start at 1 and are
incremented only while strictly below the limit. -/
theorem rateLimiter_count_bound (ops : List RLOp) (maxR win : Nat)
    (hmax : 1 ≤ maxR) :
    countsInRange (applyOps ops (RateLimiter.mk maxR win)) := by
  have key : ∀ (ops : List RLOp) (s : RateLimiterState),
      1 ≤ s.maxRequests → countsInRange s →
      countsInRange (applyOps ops s) := by
    intro ops
    induction ops with
    | nil => intro s _ hinv; exact hinv
    | cons op rest ih =>
        intro s hm hinv
        exact ih (applyOp op s)
          (by rw [applyOp_maxRequests]; exact hm)
          (countsInRange_applyOp op s hm hinv)
  exact key ops (RateLimiter.mk maxR win) hmax (by intro p hp; cases hp)

/-- Witness for C10 (amended): a concrete operation sequence on the
default limiter. -/
theorem rateLimiter_count_bound_witness :
    countsInRange (applyOps
      [RLOp.check 0 "a", RLOp.check 1 "a", RLOp.check 2 "b",
       RLOp.clear "b", RLOp.clean 70000, RLOp.check 70001 "a"]
      (RateLimiter.mk 10 60000)) :=
  rateLimiter_count_bound
    [RLOp.check 0 "a", RLOp.check 1 "a", RLOp.check 2 "b",
     RLOp.clear "b", RLOp.clean 70000, RLOp.check 70001 "a"]
    10 60000 (by decide)

/-- A header value in the Express request: `string | string[]`
(`undefined` is modelled by `Option`). -/
inductive HeaderVal where
  | str (s : String)
  | arr (l : List String)
deriving Repr, DecidableEq

/-- The two header fields `extractClientId` reads (`x-client-id` and
`mcp-client-id`); Node lower-cases incoming header names, so the lookup
is case-insensitive at transport level. -/
structure McpHeaders where
  xClientId : Option HeaderVal
  mcpClientId : Option HeaderVal
deriving Repr, DecidableEq

/-- The `socket` field of the request: `{ remoteAddress?: string }`. -/
structure SocketInfo where
  remoteAddress : Option String
deriving Repr, DecidableEq

/-- The request context `extractClientId` accepts:
`{ headers?, ip?, socket? }`. -/
structure RequestContext where
  headers : Option McpHeaders
  ip : Option String
  socket : Option SocketInfo
deriving Repr, DecidableEq

/-- JavaScript truthiness of a header value: `undefined` and the empty
string are falsy; any array (even empty) is truthy. -/
def hvTruthy : Option HeaderVal → Bool
  | none => false
  | some (.str s) => decide (s ≠ "")
  | some (.arr _) => true

/-- JavaScript `a || b` on header values. -/
def jsOrHeader (a b : Option HeaderVal) : Option HeaderVal :=
  if hvTruthy a then a else b

/-- JavaScript truthiness of an optional string. -/
def strTruthy : Option String → Bool
  | none => false
  | some s => decide (s ≠ "")

/-- JavaScript `a || b` on optional strings. -/
def jsOrStr (a b : Option String) : Option String :=
  if strTruthy a then a else b

/-- `req.headers?.['x-client-id'] || req.headers?.['mcp-client-id']`. -/
def headerChoice (r : RequestContext) : Option HeaderVal :=
  jsOrHeader (r.headers.bind McpHeaders.xClientId)
    (r.headers.bind McpHeaders.mcpClientId)

/-- The string interpolated into `ip:${ip}` by `extractClientId`:
`req.ip || req.socket?.remoteAddress || 'unknown'`. -/
def ipString (r : RequestContext) : String :=
  match jsOrStr r.ip (r.socket.bind SocketInfo.remoteAddress) with
  | some s => if s = "" then "unknown" else s
  | none => "unknown"

/-- `RateLimiter.extractClientId(req?)` from `src/utils.ts`:

```
if (!req) { return 'default'; }
const clientIdHeader = req.headers?.['x-client-id']
  || req.headers?.['mcp-client-id'];
if (clientIdHeader && typeof clientIdHeader === 'string') {
  return clientIdHeader;
}
const ip = req.ip || req.socket?.remoteAddress || 'unknown';
return `ip:${ip}`;
``` -/
def extractClientId (req : Option RequestContext) : String :=
  match req with
  | none => "default"
  | some r =>
      match headerChoice r with
      | some (.str s) => if s = "" then "ip:" ++ ipString r else s
      | _ => "ip:" ++ ipString r

/-- The client-supplied identifier `extractClientId` honours, if any:
the first truthy of the two designated headers, when it is a non-empty
string. -/
def clientHeader (r : RequestContext) : Option String :=
  match headerChoice r with
  | some (.str s) => if s = "" then none else some s
  | _ => none

theorem extractClientId_decompose (r : RequestContext) :
    extractClientId (some r) =
      match clientHeader r with
      | some s => s
      | none => "ip:" ++ ipString r := by
  rcases h : headerChoice r with _ | (s | l)
  · simp [extractClientId, clientHeader, h]
  · by_cases hs : s = "" <;> simp [extractClientId, clientHeader, h, hs]
  · simp [extractClientId, clientHeader, h]

theorem clientHeader_ne_empty (r : RequestContext) (s : String)
    (h : clientHeader r = some s) : s ≠ "" := by
  unfold clientHeader at h
  rcases hc : headerChoice r with _ | (s' | l) <;> rw [hc] at h
  · exact Option.noConfusion h
  · by_cases hs : s' = ""
    · simp [hs] at h
    · simp [hs] at h
      rw [← h]
      exact hs
  · exact Option.noConfusion h

/-- C7: `extractClientId` is a pure function (a Lean function of its
request argument alone) with the claimed precedence: no request context
yields the constant `"default"`; a non-empty string client-identifier
header is returned verbatim; otherwise the result is derived from the
caller's network address (`"ip:" ++ address`, preferring `req.ip` over
`req.socket.remoteAddress`); and when neither address is available the
fixed sentinel `"ip:unknown"` is returned. -/
theorem extractClientId_spec :
    extractClientId none = "default" ∧
    (∀ r s, clientHeader r = some s →
      extractClientId (some r) = s ∧ s ≠ "") ∧
    (∀ r, clientHeader r = none →
      extractClientId (some r) = "ip:" ++ ipString r) ∧
    (∀ r s, clientHeader r = none → r.ip = some s → s ≠ "" →
      extractClientId (some r) = "ip:" ++ s) ∧
    (∀ r, clientHeader r = none → strTruthy r.ip = false →
      strTruthy (r.socket.bind SocketInfo.remoteAddress) = false →
      extractClientId (some r) = "ip:unknown") := by
  refine ⟨rfl, ?_, ?_, ?_, ?_⟩
  · intro r s hs
    refine ⟨?_, clientHeader_ne_empty r s hs⟩
    rw [extractClientId_decompose, hs]
  · intro r hr
    rw [extractClientId_decompose, hr]
  · intro r s hr hip hne
    rw [extractClientId_decompose, hr]
    unfold ipString jsOrStr
    rw [hip]
    simp [strTruthy, hne]
  · intro r hr hip hsock
    rw [extractClientId_decompose, hr]
    unfold ipString jsOrStr
    rw [hip]
    simp only [Bool.false_eq_true, if_false]
    rcases h : r.socket.bind SocketInfo.remoteAddress with _ | s
    · rfl
    · rw [h] at hsock
      unfold strTruthy at hsock
      simp only [decide_eq_false_iff_not, Decidable.not_not] at hsock
      simp [hsock]

/-- Witness for C7 at concrete request contexts: header present, header
absent with an ip, and nothing available at all. -/
theorem extractClientId_spec_witness :
    extractClientId (some ⟨some ⟨some (.str "agent-7"), none⟩,
        some "1.2.3.4", none⟩) = "agent-7" ∧
    extractClientId (some ⟨none, some "1.2.3.4", none⟩) = "ip:1.2.3.4" ∧
    extractClientId (some ⟨none, none, none⟩) = "ip:unknown" := by
  refine ⟨?_, ?_, ?_⟩
  · exact (extractClientId_spec.2.1 ⟨some ⟨some (.str "agent-7"), none⟩,
      some "1.2.3.4", none⟩ "agent-7" (by decide)).1
  · exact extractClientId_spec.2.2.2.1 ⟨none, some "1.2.3.4", none⟩
      "1.2.3.4" (by decide) rfl (by decide)
  · exact extractClientId_spec.2.2.2.2 ⟨none, none, none⟩
      (by decide) (by decide) (by decide)

/-- Whitespace for the purposes of `String.prototype.trim()` (the ASCII
whitespace characters that can occur in search terms). -/
def isJsWhitespace (c : Char) : Bool :=
  c == ' ' || c == '\t' || c == '\n' || c == '\r' || c == '\x0b' ||
    c == '\x0c'

/-- `searchTerm.trim()`: drop leading and trailing whitespace. -/
def jsTrim (s : String) : String :=
  String.mk
    (((s.toList.dropWhile isJsWhitespace).reverse.dropWhile
      isJsWhitespace).reverse)

/-- The character class of `/^[A-Za-z0-9\-_.]+$/` in `validateSearchTerm`
(`aws-lambda/index.ts`). -/
def searchTermChar (c : Char) : Bool :=
  c.isAlpha || c.isDigit || c == '-' || c == '_' || c == '.'

/-- `\w` of the sanitizer regex: `[A-Za-z0-9_]`. -/
def wordChar (c : Char) : Bool :=
  c.isAlpha || c.isDigit || c == '_'

/-- The characters KEPT by `input.replace(/[^\w\-.]/g, '')` in
`sanitizeInput` (`aws-lambda/index.ts`). -/
def sanitizeKeepChar (c : Char) : Bool :=
  wordChar c || c == '-' || c == '.'

/-- `/^[A-Za-z0-9\-_.]+$/.test(s)`. -/
def searchTermRegexTest (s : String) : Bool :=
  !(s == "") && s.toList.all searchTermChar

/-- Did the fallible computation succeed? -/
def exceptOk {β : Type} : Except String β → Bool
  | .ok _ => true
  | .error _ => false

/-- `validateSearchTerm` from `aws-lambda/index.ts`: reject a missing or
empty term, trim it, reject an empty trimmed term, reject any character
outside the permitted class, and return the trimmed term. -/
def validateSearchTerm (searchTerm : String) : Except String String :=
  if searchTerm == "" then
    .error "Search term is required and must be a string"
  else
    let trimmed := jsTrim searchTerm
    if trimmed.length == 0 then
      .error "Search term cannot be empty"
    else if !(searchTermRegexTest trimmed) then
      .error "Invalid search term format. Only alphanumeric characters, hyphens, underscores, and dots are allowed."
    else
      .ok trimmed

/-- `sanitizeInput` from `aws-lambda/index.ts`: strip every character
outside `[\w\-.]`, then reject the empty result or a result longer than
100 characters. -/
def sanitizeInput (input : String) : Except String String :=
  let sanitized := String.mk (input.toList.filter sanitizeKeepChar)
  if sanitized.length == 0 then
    .error "Invalid search term format"
  else if sanitized.length > 100 then
    .error "Search term too long"
  else
    .ok sanitized

/-- The search-term admission pipeline of `searchLogs`
(`aws-lambda/index.ts`): `sanitizeInput(validateSearchTerm(searchTerm))`.
-/
def searchTermPipeline (s : String) : Except String String :=
  match validateSearchTerm s with
  | .ok t => sanitizeInput t
  | .error e => .error e

theorem sanitizeKeepChar_eq (c : Char) :
    sanitizeKeepChar c = searchTermChar c := by
  unfold sanitizeKeepChar wordChar searchTermChar
  cases h1 : c.isAlpha <;> cases h2 : c.isDigit <;>
    cases h3 : (c == '_') <;> cases h4 : (c == '-') <;>
    cases h5 : (c == '.') <;> simp [h1, h2, h3, h4, h5]

theorem string_mk_toList (s : String) : String.mk s.toList = s := by
  cases s
  rfl

theorem string_eq_empty_iff (s : String) : s = "" ↔ s.toList = [] := by
  cases s with
  | mk data =>
      constructor
      · intro h
        rw [h]
        rfl
      · intro h
        show String.mk data = ""
        rw [show data = ([] : List Char) from h]

/-- Acceptance condition of the search-term pipeline: the trimmed term is
non-empty, at most 100 characters, and drawn from the permitted
character class. -/
theorem searchTermPipeline_accept_iff (st : String) :
    exceptOk (searchTermPipeline st) = true ↔
    (jsTrim st ≠ "" ∧ 1 ≤ (jsTrim st).length ∧
      (jsTrim st).length ≤ 100 ∧
      (jsTrim st).toList.all searchTermChar = true) := by
  by_cases h0 : st = ""
  · subst h0
    constructor
    · intro h
      exact absurd h (by decide)
    · rintro ⟨hne, -⟩
      exact absurd rfl hne
  · have hv : validateSearchTerm st =
        (if (jsTrim st).length == 0 then
          .error "Search term cannot be empty"
        else if !(searchTermRegexTest (jsTrim st)) then
          .error "Invalid search term format. Only alphanumeric characters, hyphens, underscores, and dots are allowed."
        else
          .ok (jsTrim st)) := by
      unfold validateSearchTerm
      simp [h0]
    by_cases h1 : (jsTrim st).length = 0
    · have hne : jsTrim st = "" := by
        rw [string_eq_empty_iff]
        exact List.length_eq_zero.mp h1
      rw [searchTermPipeline, hv]
      simp [h1, hne, exceptOk]
    · have hTne : jsTrim st ≠ "" := by
        intro h
        exact h1 (by rw [h]; rfl)
      by_cases h2 : (jsTrim st).toList.all searchTermChar = true
      · have hregex : searchTermRegexTest (jsTrim st) = true := by
          unfold searchTermRegexTest
          rw [h2, Bool.and_true]
          simp [hTne]
        have hfilter : (jsTrim st).toList.filter sanitizeKeepChar =
            (jsTrim st).toList := by
          rw [List.filter_eq_self]
          intro a ha
          rw [sanitizeKeepChar_eq]
          exact List.all_eq_true.mp h2 a ha
        have hsan : sanitizeInput (jsTrim st) =
            (if (jsTrim st).length == 0 then
              .error "Invalid search term format"
            else if (jsTrim st).length > 100 then
              .error "Search term too long"
            else
              .ok (jsTrim st)) := by
          unfold sanitizeInput
          rw [hfilter, string_mk_toList]
        rw [searchTermPipeline, hv, if_neg (by simp [h1]),
          if_neg (by rw [hregex]; simp)]
        show exceptOk (sanitizeInput (jsTrim st)) = true ↔ _
        rw [hsan, if_neg (by simp [h1])]
        by_cases h3 : (jsTrim st).length ≤ 100
        · rw [if_neg (Nat.not_lt.mpr h3)]
          constructor
          · intro _
            exact ⟨hTne, by omega, h3, h2⟩
          · intro _
            rfl
        · rw [if_pos (Nat.lt_of_not_le h3)]
          constructor
          · intro hq
            simp [exceptOk] at hq
          · rintro ⟨-, -, h3', -⟩
            exact absurd h3' h3
      · have hall : (jsTrim st).toList.all searchTermChar = false :=
          Bool.eq_false_iff.mpr h2
        have hregex : searchTermRegexTest (jsTrim st) = false := by
          unfold searchTermRegexTest
          rw [hall, Bool.and_false]
        rw [searchTermPipeline, hv, if_neg (by simp [h1]),
          if_pos (by rw [hregex]; rfl)]
        constructor
        · intro hq
          simp [exceptOk] at hq
        · rintro ⟨-, -, -, h2'⟩
          exact absurd h2' h2

/-- The `limit` field of `GetLogsByOrderNumberSchema` (`src/types.ts`):
`z.number().int().min(1).max(1000).default(50)`.  A JavaScript number is
modelled as a rational; `den = 1` is the integrality check. -/
def parseLimit (q : Option ℚ) : Except String ℚ :=
  match q with
  | none => .ok 50
  | some x =>
      if x.den ≠ 1 then .error "Limit must be an integer"
      else if x < 1 then .error "Limit must be at least 1"
      else if x > 1000 then .error "Limit cannot exceed 1000"
      else .ok x

/-- Maximal run of `\d` at the head of the character list. -/
def takeDigits (l : List Char) : List Char × List Char :=
  match l with
  | [] => ([], [])
  | c :: rest =>
      if c.isDigit then
        let p := takeDigits rest
        (c :: p.1, p.2)
      else
        ([], c :: rest)

/-- The alternation `(\d+D|T\d+H|\d+DT\d+H)` after the leading `P` of the
duration regex in `src/types.ts`. -/
def durationTailTest (l : List Char) : Bool :=
  match l with
  | 'T' :: rest =>
      let p := takeDigits rest
      !p.1.isEmpty && decide (p.2 = ['H'])
  | _ =>
      let p := takeDigits l
      !p.1.isEmpty &&
        (decide (p.2 = ['D']) ||
          (match p.2 with
           | 'D' :: 'T' :: r2 =>
               let q := takeDigits r2
               !q.1.isEmpty && decide (q.2 = ['H'])
           | _ => false))

/-- `/^P(\d+D|T\d+H|\d+DT\d+H)$/.test(s)`. -/
def durationRegexTest (s : String) : Bool :=
  match s.toList with
  | 'P' :: rest => durationTailTest rest
  | _ => false

/-- The `duration` field of `GetLogsByOrderNumberSchema`
(`src/types.ts`): the ISO-8601 day/hour pattern with default `"P7D"`. -/
def parseDuration (d : Option String) : Except String String :=
  match d with
  | none => .ok "P7D"
  | some s =>
      if durationRegexTest s then .ok s
      else .error "Duration must be in ISO 8601 format (e.g., P7D for 7 days, PT24H for 24 hours)"

theorem parseLimit_ok_iff (x : ℚ) :
    exceptOk (parseLimit (some x)) = true ↔
      (x.den = 1 ∧ 1 ≤ x ∧ x ≤ 1000) := by
  unfold parseLimit
  by_cases h1 : x.den = 1
  · by_cases h2 : x < 1
    · simp [h1, h2, exceptOk]
    · by_cases h3 : x > 1000
      · simp [h1, h2, h3, exceptOk]
      · simp [h1, h2, h3, exceptOk, not_lt.mp h2, not_lt.mp h3]
  · simp [h1, exceptOk]

theorem parseDuration_ok_iff (s : String) :
    parseDuration (some s) = .ok s ↔ durationRegexTest s = true := by
  unfold parseDuration
  by_cases h : durationRegexTest s
  · simp [h]
  · simp [h]

/-- C2: input validation acceptance.  The search-term pipeline of the
Lambda (`validateSearchTerm` then `sanitizeInput`) accepts exactly the
terms whose trimmed form is non-empty, of length 1–100, and drawn from
`[A-Za-z0-9\-_.]` — so `"ORD-12345.test_1"` and a 100-character
valid-charset term are accepted while the empty term, a 101-character
term and a term containing a space are rejected; `limit` accepts exactly
the integers in `[1, 1000]` and defaults to 50; `duration` accepts
exactly the strings matching the ISO-8601 day/hour pattern and defaults
to `"P7D"`. -/
theorem inputValidation_spec :
    (∀ st, exceptOk (searchTermPipeline st) = true ↔
      (jsTrim st ≠ "" ∧ 1 ≤ (jsTrim st).length ∧
        (jsTrim st).length ≤ 100 ∧
        (jsTrim st).toList.all searchTermChar = true)) ∧
    exceptOk (searchTermPipeline "ORD-12345.test_1") = true ∧
    exceptOk (searchTermPipeline "") = false ∧
    exceptOk (searchTermPipeline "ORD 123") = false ∧
    exceptOk (searchTermPipeline
      (String.mk (List.replicate 100 'a'))) = true ∧
    exceptOk (searchTermPipeline
      (String.mk (List.replicate 101 'a'))) = false ∧
    parseLimit none = .ok 50 ∧
    (∀ x, exceptOk (parseLimit (some x)) = true ↔
      (x.den = 1 ∧ 1 ≤ x ∧ x ≤ 1000)) ∧
    parseDuration none = .ok "P7D" ∧
    (∀ s, parseDuration (some s) = .ok s ↔ durationRegexTest s = true) ∧
    durationRegexTest "P7D" = true ∧
    durationRegexTest "PT24H" = true ∧
    durationRegexTest "P1DT2H" = true ∧
    durationRegexTest "30days" = false := by
  refine ⟨searchTermPipeline_accept_iff, ?_, ?_, ?_, ?_, ?_, rfl,
    parseLimit_ok_iff, rfl, parseDuration_ok_iff, ?_, ?_, ?_, ?_⟩
  · decide
  · decide
  · decide
  · decide
  · decide
  · decide
  · decide
  · decide
  · decide

/-- A thrown JavaScript value as seen by `sanitizeError`
(`src/server-common.ts`): one of the error classes defined in
`src/types.ts`, some other `Error` instance (with its constructor name),
or a non-`Error` value (carrying its `String(error)` rendering). -/
inductive JsError where
  | validationError (message : String)
  | configurationError (message : String)
  | queryError (message : String)
  | otherError (name message : String)
  | nonError (repr : String)
deriving Repr, DecidableEq

/-- `error instanceof Error ? error.message : String(error)`. -/
def errMessage : JsError → String
  | .validationError m => m
  | .configurationError m => m
  | .queryError m => m
  | .otherError _ m => m
  | .nonError r => r

/-- `error.constructor.name` (or `'Unknown'` for non-`Error` values). -/
def errName : JsError → String
  | .validationError _ => "ValidationError"
  | .configurationError _ => "ConfigurationError"
  | .queryError _ => "QueryError"
  | .otherError n _ => n
  | .nonError _ => "Unknown"

/-- `error instanceof Error`. -/
def isErrorInstance : JsError → Bool
  | .nonError _ => false
  | _ => true

/-- `error instanceof ValidationError`. -/
def isValidationError : JsError → Bool
  | .validationError _ => true
  | _ => false

/-- `error instanceof ConfigurationError`. -/
def isConfigurationError : JsError → Bool
  | .configurationError _ => true
  | _ => false

/-- `hay.includes(needle)` on character lists. -/
def includesSub (needle : List Char) : List Char → Bool
  | [] => needle.isPrefixOf []
  | c :: t => needle.isPrefixOf (c :: t) || includesSub needle t

/-- `message.includes(pattern)`. -/
def includesStr (hay needle : String) : Bool :=
  includesSub needle.toList hay.toList

/-- The fixed generic client-facing message of `sanitizeError`. -/
def genericErrorMessage : String :=
  "An error occurred while processing your request. Please try again later."

/-- The safe-pattern test of `sanitizeError` (`src/server-common.ts`):
`message.includes('Invalid search term') || message.includes('Search
term') || message.includes('validation')`. -/
def safePatternMatch (m : String) : Bool :=
  includesStr m "Invalid search term" || includesStr m "Search term" ||
    includesStr m "validation"

/-- `sanitizeError` from `src/server-common.ts` (client-facing result;
its unconditional log emission is modelled by `sanitizeErrorLog` below):

```
if (error instanceof ValidationError ||
    error instanceof ConfigurationError ||
    (error instanceof Error && (message-pattern tests))) {
  return errorMessage;
}
return 'An error occurred while processing your request. ...';
``` -/
def sanitizeError (e : JsError) : String :=
  if isValidationError e || isConfigurationError e ||
      (isErrorInstance e && safePatternMatch (errMessage e)) then
    errMessage e
  else
    genericErrorMessage

/-- C3's classification, stated from the spec: disclosure-safe errors are
the `ValidationError`s, the `ConfigurationError`s, and the `Error`
instances whose message text matches the safe-pattern set. -/
def disclosureSafe (e : JsError) : Prop :=
  (∃ m, e = .validationError m) ∨ (∃ m, e = .configurationError m) ∨
    (isErrorInstance e = true ∧ safePatternMatch (errMessage e) = true)

/-- C3: `sanitizeError` returns the original message exactly on
disclosure-safe errors (ValidationError, ConfigurationError, or an error
whose message matches a safe pattern), and on every other error value it
returns exactly the fixed generic string — a constant independent of the
error, so no fragment of the original message can cross. -/
theorem sanitizeError_spec (e : JsError) :
    (disclosureSafe e → sanitizeError e = errMessage e) ∧
    (¬ disclosureSafe e → sanitizeError e = genericErrorMessage) := by
  constructor
  · intro h
    unfold sanitizeError
    rcases h with ⟨m, rfl⟩ | ⟨m, rfl⟩ | ⟨hinst, hpat⟩
    · rfl
    · rfl
    · rw [hinst, hpat, Bool.and_self, Bool.or_true, if_pos rfl]
  · intro h
    unfold sanitizeError
    rw [if_neg]
    intro hcond
    apply h
    unfold disclosureSafe
    rcases Bool.or_eq_true_iff.mp hcond with h1 | h2
    · rcases Bool.or_eq_true_iff.mp h1 with hv | hc
      · cases e <;> simp [isValidationError] at hv
        exact Or.inl ⟨_, rfl⟩
      · cases e <;> simp [isConfigurationError] at hc
        exact Or.inr (Or.inl ⟨_, rfl⟩)
    · exact Or.inr (Or.inr (Bool.and_eq_true_iff.mp h2))

/-- Witness for C3: a query-engine failure (with a network-looking
message) is replaced by the generic message; a ValidationError's message
is returned verbatim. -/
theorem sanitizeError_spec_witness :
    sanitizeError (.queryError "connect ECONNREFUSED 10.0.0.5:443")
      = genericErrorMessage ∧
    sanitizeError (.validationError "Search term cannot be empty")
      = "Search term cannot be empty" := by
  constructor
  · refine (sanitizeError_spec
      (.queryError "connect ECONNREFUSED 10.0.0.5:443")).2 ?_
    rintro (⟨m, hm⟩ | ⟨m, hm⟩ | ⟨-, hpat⟩)
    · exact JsError.noConfusion hm
    · exact JsError.noConfusion hm
    · revert hpat
      decide
  · exact (sanitizeError_spec
      (.validationError "Search term cannot be empty")).1
      (Or.inl ⟨_, rfl⟩)

/-- The session registry of `startHttpServer` (`src/http-server.ts`):
the `transports` object maps session-id tokens to transport/handler
instances (modelled by numeric handles), and `nextHandle` feeds the
fresh-instance and fresh-token generators.  Keys of a JavaScript object
are unique, so deletion removes the (single) binding of a token. -/
structure SessionRegistry where
  transports : List (String × Nat)
  nextHandle : Nat
deriving Repr, DecidableEq

/-- `transports[sessionId]` lookup. -/
def sessGet (l : List (String × Nat)) (k : String) : Option Nat :=
  match l with
  | [] => none
  | (k', v) :: rest => if k' = k then some v else sessGet rest k

/-- `transports[sessionId] = transport` assignment. -/
def sessSet (l : List (String × Nat)) (k : String) (v : Nat) :
    List (String × Nat) :=
  match l with
  | [] => [(k, v)]
  | (k', v') :: rest =>
      if k' = k then (k, v) :: rest else (k', v') :: sessSet rest k v

/-- `delete transports[sessionId]`: removes every binding of the token
(at most one exists, since object keys are unique). -/
def sessDelete (l : List (String × Nat)) (k : String) :
    List (String × Nat) :=
  l.filter (fun p => p.1 ≠ k)

/-- `randomUUID()`, modelled as a token indexed by the generator state. -/
def mintToken (n : Nat) : String := "session-" ++ toString n

/-- Outcome of routing one inbound `/mcp` call: either the existing
transport bound to the presented token services it, or a brand-new
transport is created and registered under a freshly minted token. -/
inductive RouteResult where
  | reused (handler : Nat)
  | created (handler : Nat) (token : String)
deriving Repr, DecidableEq

/-- The `else` branch of the `/mcp` handler: construct a new transport,
mint a session id and register the pair (`onsessioninitialized` stores
the transport under the generated id; modelled as immediate
registration). -/
def newSession (reg : SessionRegistry) : RouteResult × SessionRegistry :=
  (.created reg.nextHandle (mintToken reg.nextHandle),
    ⟨sessSet reg.transports (mintToken reg.nextHandle) reg.nextHandle,
      reg.nextHandle + 1⟩)

/-- The session-routing logic of the `/mcp` handler
(`src/http-server.ts`):

```
const sessionId = req.headers['mcp-session-id'];
if (sessionId && transports[sessionId]) {
  transport = transports[sessionId];   // reuse
} else {
  transport = new StreamableHTTPServerTransport({...});  // new session
}
``` -/
def handleMcp (reg : SessionRegistry) (hdr : Option String) :
    RouteResult × SessionRegistry :=
  match hdr with
  | some t =>
      if t = "" then newSession reg
      else
        match sessGet reg.transports t with
        | some h => (.reused h, reg)
        | none => newSession reg
  | none => newSession reg

/-- `transport.onclose`: remove the token from the registry. -/
def closeSession (t : String) (reg : SessionRegistry) :
    SessionRegistry :=
  ⟨sessDelete reg.transports t, reg.nextHandle⟩

theorem sessGet_sessDelete (l : List (String × Nat)) (t : String) :
    sessGet (sessDelete l t) t = none := by
  induction l with
  | nil => rfl
  | cons hd tl ih =>
      by_cases h : hd.1 = t
      · simpa [sessDelete, h] using ih
      · simpa [sessDelete, sessGet, h] using ih

/-- C4: session routing.  A call whose session header carries a token
bound in the registry is routed to the existing handler and the registry
is untouched (no new handler); a call with no token, an empty token, or
a non-empty token absent from the registry behaves exactly like a
token-less call: a brand-new session is minted.  Closing a token removes
it, so a stale token is afterwards treated as a brand-new session.  Every
call produces a routing outcome — never an error. -/
theorem handleMcp_spec :
    (∀ reg t h, t ≠ "" → sessGet reg.transports t = some h →
      handleMcp reg (some t) = (.reused h, reg)) ∧
    (∀ reg t, t ≠ "" → sessGet reg.transports t = none →
      handleMcp reg (some t) = handleMcp reg none) ∧
    (∀ reg, handleMcp reg (some "") = handleMcp reg none) ∧
    (∀ reg t, sessGet (closeSession t reg).transports t = none) ∧
    (∀ reg t, handleMcp (closeSession t reg) (some t) =
      handleMcp (closeSession t reg) none) ∧
    (∀ reg hdr, (∃ h, (handleMcp reg hdr).1 = .reused h) ∨
      (∃ h tok, (handleMcp reg hdr).1 = .created h tok)) := by
  refine ⟨?_, ?_, ?_, ?_, ?_, ?_⟩
  · intro reg t h ht hget
    simp only [handleMcp]
    rw [if_neg ht, hget]
  · intro reg t ht hget
    simp only [handleMcp]
    rw [if_neg ht, hget]
  · intro reg
    simp [handleMcp]
  · intro reg t
    exact sessGet_sessDelete reg.transports t
  · intro reg t
    by_cases ht : t = ""
    · subst ht
      simp [handleMcp]
    · simp only [handleMcp, closeSession]
      rw [if_neg ht, sessGet_sessDelete]
  · intro reg hdr
    match hdr with
    | none => exact Or.inr ⟨_, _, rfl⟩
    | some t =>
        by_cases ht : t = ""
        · subst ht
          refine Or.inr ⟨reg.nextHandle, mintToken reg.nextHandle, ?_⟩
          simp [handleMcp, newSession]
        · rcases hget : sessGet reg.transports t with _ | h
          · refine Or.inr
              ⟨reg.nextHandle, mintToken reg.nextHandle, ?_⟩
            simp only [handleMcp]
            rw [if_neg ht, hget]
            rfl
          · refine Or.inl ⟨h, ?_⟩
            simp only [handleMcp]
            rw [if_neg ht, hget]

/-- Witness for C4 at a concrete registry: token `"s1"` bound to handler
0 is reused; the unknown token `"zz"` and the stale token `"s1"` after
closure mint new sessions exactly as a token-less call would. -/
theorem handleMcp_spec_witness :
    handleMcp ⟨[("s1", 0)], 1⟩ (some "s1") =
      (.reused 0, ⟨[("s1", 0)], 1⟩) ∧
    handleMcp ⟨[("s1", 0)], 1⟩ (some "zz") =
      handleMcp ⟨[("s1", 0)], 1⟩ none ∧
    handleMcp (closeSession "s1" ⟨[("s1", 0)], 1⟩) (some "s1") =
      handleMcp (closeSession "s1" ⟨[("s1", 0)], 1⟩) none := by
  refine ⟨?_, ?_, ?_⟩
  · exact handleMcp_spec.1 ⟨[("s1", 0)], 1⟩ "s1" 0 (by decide) (by decide)
  · exact handleMcp_spec.2.1 ⟨[("s1", 0)], 1⟩ "zz" (by decide) (by decide)
  · exact handleMcp_spec.2.2.2.2.1 ⟨[("s1", 0)], 1⟩ "s1"

/-- One line written to the operational log sink: the message string and
the structured metadata fields. -/
structure LogEntry where
  message : String
  meta : List (String × String)
deriving Repr, DecidableEq

/-- Look up a metadata field of a log entry. -/
def metaLookup (m : List (String × String)) (k : String) :
    Option String :=
  match m with
  | [] => none
  | (k', v) :: rest => if k' = k then some v else metaLookup rest k

/-- The redaction placeholder the code writes in place of the term. -/
def redactedPlaceholder : String := "[REDACTED]"

/-- Observable outcome of one tool call: rejected by the rate limiter,
a successful query with a result count, or a failure with the thrown
error. -/
inductive CallOutcome where
  | rateLimited
  | success (resultCount : Nat)
  | failure (e : JsError)

/-- The unconditional log emission of `sanitizeError`
(`src/server-common.ts`): `logger.error('Error in <context>:',
{ message, stack, timestamp, type })`. -/
def sanitizeErrorLog (e : JsError) (context : String) : LogEntry :=
  ⟨"Error in " ++ context ++ ":",
    [("message", errMessage e), ("type", errName e)]⟩

set_option linter.unusedVariables false

/-- The log lines emitted by one call through
`createSearchLogsToolHandler` (`src/server-common.ts`), in order.  The
handler receives `searchTerm` but every logger call writes either fixed
text, the client id, the result count, or the error detail — the term
itself only ever appears behind the `[REDACTED]` placeholder. -/
def handlerLogs (serverType clientId searchTerm : String)
    (o : CallOutcome) : List LogEntry :=
  match o with
  | .rateLimited =>
      [⟨"Rate limit exceeded for client: " ++ clientId, []⟩]
  | .success n =>
      [⟨"Executing searchLogs",
        [("searchTerm", redactedPlaceholder),
         ("clientId",
           if serverType = "sse" then clientId else "undefined")]⟩,
       ⟨if serverType = "sse" then
          "Successfully retrieved " ++ toString n ++
            " log entries for client: " ++ clientId
        else
          "Successfully retrieved " ++ toString n ++ " log entries",
        []⟩]
  | .failure e =>
      [⟨"Executing searchLogs",
        [("searchTerm", redactedPlaceholder),
         ("clientId",
           if serverType = "sse" then clientId else "undefined")]⟩,
       sanitizeErrorLog e "searchLogs",
       ⟨"Tool execution failed",
        [("error", sanitizeError e),
         ("clientId",
           if serverType = "sse" then clientId else "undefined")]⟩]

/-- The response envelope of the same call — unlike the log sink, the
SUCCESS text does embed the search term verbatim. -/
def handlerResponse (searchTerm : String) (o : CallOutcome) :
    String × Bool :=
  match o with
  | .rateLimited =>
      ("Rate limit exceeded. Please wait before making another request.",
        true)
  | .success n =>
      ("Successfully retrieved " ++ toString n ++
        " log entries for search term: " ++ searchTerm, false)
  | .failure e => ("Failed to fetch logs: " ++ sanitizeError e, true)

/-- The error log of `searchLogs` in `aws-lambda/index.ts`:
`console.error('Error querying Application Insights:', { message,
searchTerm: '[REDACTED]', timestamp, type })`. -/
def lambdaQueryErrorLog (e : JsError) (searchTerm : String) : LogEntry :=
  ⟨"Error querying Application Insights:",
    [("message", errMessage e),
     ("searchTerm", redactedPlaceholder),
     ("type", errName e)]⟩

/-- Does a log entry's `searchTerm` field (when present) hold only the
redaction placeholder? -/
def searchTermFieldRedacted (entry : LogEntry) : Bool :=
  match metaLookup entry.meta "searchTerm" with
  | none => true
  | some v => v == redactedPlaceholder

/-- C8: log redaction.  For every call through the tool pipeline —
rate-limited, successful or failed — the emitted log lines do not depend
on the search term at all (so the literal term never reaches the sink),
and every `searchTerm` log field holds exactly the redaction
placeholder.  The same holds for the Lambda's query-error log line. -/
theorem handlerLogs_redacted :
    (∀ serverType clientId term term' o,
      handlerLogs serverType clientId term o =
        handlerLogs serverType clientId term' o) ∧
    (∀ serverType clientId term o,
      (handlerLogs serverType clientId term o).all
        searchTermFieldRedacted = true) ∧
    (∀ e term term',
      lambdaQueryErrorLog e term = lambdaQueryErrorLog e term') ∧
    (∀ e term,
      searchTermFieldRedacted (lambdaQueryErrorLog e term) = true) := by
  refine ⟨?_, ?_, ?_, ?_⟩
  · intro serverType clientId term term' o
    cases o <;> rfl
  · intro serverType clientId term o
    cases o with
    | rateLimited => rfl
    | success n =>
        simp [handlerLogs, searchTermFieldRedacted, metaLookup,
          List.all_eq_true]
    | failure e =>
        simp [handlerLogs, searchTermFieldRedacted, metaLookup,
          sanitizeErrorLog, List.all_eq_true]
  · intro e term term'
    rfl
  · intro e term
    rfl
